import Mathlib

/-!
Shallow embedding of the FinGenius personal-finance application
(src/app.py, src/models.py) and proofs about its specification.

Monetary amounts (SQLAlchemy `Float` columns) are modelled as rationals `ℚ`;
dates are modelled as abstract `Nat` ordinals (no claim depends on date
arithmetic). The database tables of models.py become lists of records, and
the SQLAlchemy queries `filter_by`, `first`, `delete`, attribute mutation and
autoincrement primary keys become the corresponding list operations.
-/

namespace FinGenius

/-- Record of the `User` table (models.py). -/
structure User where
  id : Nat
  username : String
  email : String
  password_hash : String
deriving DecidableEq

/-- Record of the `Expense` table (models.py). -/
structure Expense where
  id : Nat
  description : String
  amount : ℚ
  category : String
  date : Nat
  user_id : Nat
deriving DecidableEq

/-- Record of the `Income` table (models.py). -/
structure Income where
  id : Nat
  description : String
  amount : ℚ
  category : String
  date : Nat
  user_id : Nat
deriving DecidableEq

/-- Record of the `Goal` table (models.py). -/
structure Goal where
  id : Nat
  name : String
  target_amount : ℚ
  current_amount : ℚ
  target_date : Option Nat
  description : String
  user_id : Nat
deriving DecidableEq

/-- Record of the `Investment` table (models.py). -/
structure Investment where
  id : Nat
  name : String
  type : String
  amount : ℚ
  purchase_date : Nat
  current_value : ℚ
  notes : String
  user_id : Nat
deriving DecidableEq

/-- Record of the `Budget` table (models.py). -/
structure Budget where
  id : Nat
  category : String
  amount : ℚ
  user_id : Nat
deriving DecidableEq

/-- The whole database: the five record tables plus the user table. -/
structure Store where
  users : List User
  expenses : List Expense
  incomes : List Income
  goals : List Goal
  investments : List Investment
  budgets : List Budget
deriving DecidableEq

/-- app.py `default_expense_categories`. -/
def default_expense_categories : List String :=
  ["Housing", "Transportation", "Food", "Utilities", "Insurance",
   "Healthcare", "Debt Payments", "Savings", "Personal", "Entertainment",
   "Education", "Clothing", "Gifts/Donations", "Miscellaneous"]

/-- app.py `default_income_categories`. -/
def default_income_categories : List String :=
  ["Salary", "Freelance", "Business", "Investments", "Rental",
   "Gifts", "Other"]

/-! ### Per-user queries: `Model.query.filter_by(user_id=...)` -/

/-- Expense.query.filter_by(user_id=u).all() -/
def userExpenses (u : Nat) (s : Store) : List Expense :=
  s.expenses.filter (fun e => e.user_id == u)

/-- Income.query.filter_by(user_id=u).all() -/
def userIncomes (u : Nat) (s : Store) : List Income :=
  s.incomes.filter (fun i => i.user_id == u)

/-- Goal.query.filter_by(user_id=u).all() -/
def userGoals (u : Nat) (s : Store) : List Goal :=
  s.goals.filter (fun g => g.user_id == u)

/-- Investment.query.filter_by(user_id=u).all() -/
def userInvestments (u : Nat) (s : Store) : List Investment :=
  s.investments.filter (fun v => v.user_id == u)

/-- Budget.query.filter_by(user_id=u).all() -/
def userBudgets (u : Nat) (s : Store) : List Budget :=
  s.budgets.filter (fun b => b.user_id == u)

/-! ### Totals: the `sum(... for ...)` comprehensions of app.py -/

/-- sum(expense.amount for expense in expenses) -/
def sumExpenseAmounts (es : List Expense) : ℚ := (es.map Expense.amount).sum

/-- sum(income.amount for income in incomes) -/
def sumIncomeAmounts (xs : List Income) : ℚ := (xs.map Income.amount).sum

/-- sum(investment.current_value for investment in investments) -/
def sumInvestmentValues (vs : List Investment) : ℚ :=
  (vs.map Investment.current_value).sum

/-! ### Category grouping: the Python dict-accumulation pattern

    d = \x7b\x7d; for x in xs: d.setdefault(k x, 0); d[k x] += v x

modelled on association lists in insertion order: updating an existing key
updates its (unique) first occurrence in place, a new key is appended. -/

/-- Add `v` to key `k` of the association list (insert `(k, v)` if absent). -/
def addToGroup : List (String × ℚ) → String → ℚ → List (String × ℚ)
  | [], k, v => [(k, v)]
  | p :: m, k, v => if p.1 = k then (p.1, p.2 + v) :: m else p :: addToGroup m k v

/-- Build the grouping dict from a list of (key, value) pairs. -/
def groupBy (pairs : List (String × ℚ)) : List (String × ℚ) :=
  pairs.foldl (fun m p => addToGroup m p.1 p.2) []

/-- Value of the dict at a key, 0 when absent (dict.get(k, 0)):
the value of the first occurrence of the key. -/
def groupVal : List (String × ℚ) → String → ℚ
  | [], _ => 0
  | p :: m, k => if p.1 = k then p.2 else groupVal m k

/-- Sum of the dict values (sum(d.values())). -/
def sumVals (m : List (String × ℚ)) : ℚ := (m.map Prod.snd).sum

/-- expense_by_category of get_financial_summary / suggestions (app.py). -/
def expense_by_category (es : List Expense) : List (String × ℚ) :=
  groupBy (es.map (fun e => (e.category, e.amount)))

/-- income_by_category of get_financial_summary (app.py). -/
def income_by_category (xs : List Income) : List (String × ℚ) :=
  groupBy (xs.map (fun i => (i.category, i.amount)))

/-- investments_by_type of get_financial_summary (app.py). -/
def investments_by_type (vs : List Investment) : List (String × ℚ) :=
  groupBy (vs.map (fun v => (v.type, v.current_value)))

/-! ### The financial summary endpoint GET /api/summary -/

/-- Response body of get_financial_summary (app.py). -/
structure Summary where
  total_expenses : ℚ
  total_income : ℚ
  total_investments : ℚ
  net_worth : ℚ
  expense_by_category : List (String × ℚ)
  income_by_category : List (String × ℚ)
  investments_by_type : List (String × ℚ)
deriving DecidableEq

/-- Handler get_financial_summary of GET /api/summary (app.py). -/
def get_financial_summary (u : Nat) (s : Store) : Summary :=
  let user_expenses := userExpenses u s
  let user_incomes := userIncomes u s
  let user_investments := userInvestments u s
  let total_expenses := sumExpenseAmounts user_expenses
  let total_income := sumIncomeAmounts user_incomes
  let total_investments := sumInvestmentValues user_investments
  { total_expenses := total_expenses
    total_income := total_income
    total_investments := total_investments
    net_worth := total_income - total_expenses + total_investments
    expense_by_category := expense_by_category user_expenses
    income_by_category := income_by_category user_incomes
    investments_by_type := investments_by_type user_investments }

/-- Net worth as computed by the dashboard handler index (app.py lines 91-93):
total income minus total expenses, with no investment term. -/
def index_net_worth (u : Nat) (s : Store) : ℚ :=
  sumIncomeAmounts (userIncomes u s) - sumExpenseAmounts (userExpenses u s)

/-! ### CRUD handlers

Autoincrement primary keys are modelled as one more than the largest id in
the table. `Query.first()` is `List.find?`, `db.session.delete` is
`List.eraseP` (the found record is the first match, and primary keys make it
unique in any real database state), and mutation of a fetched record is
`updateFirst`. -/

/-- Fresh autoincrement id: one past the maximum id in the table. -/
def freshId (ids : List Nat) : Nat := ids.foldr max 0 + 1

/-- Update the first element satisfying the predicate, in place. -/
def updateFirst {α : Type} (p : α → Bool) (f : α → α) : List α → List α
  | [] => []
  | x :: xs => if p x then f x :: xs else x :: updateFirst p f xs

/-- Request body of POST /api/expenses (and the expenses-page form). -/
structure ExpenseData where
  description : String
  amount : ℚ
  category : String
  date : Nat
deriving DecidableEq

/-- Request body of POST /api/incomes (and the income-page form). -/
structure IncomeData where
  description : String
  amount : ℚ
  category : String
  date : Nat
deriving DecidableEq

/-- Request body of POST /api/goals (and the goals-page form). -/
structure GoalData where
  name : String
  target_amount : ℚ
  current_amount : ℚ
  target_date : Option Nat
  description : String
deriving DecidableEq

/-- Request body of POST /api/investments (and the investments-page form). -/
structure InvestmentData where
  name : String
  type : String
  amount : ℚ
  purchase_date : Nat
  current_value : ℚ
  notes : String
deriving DecidableEq

/-- Handler add_expense of POST /api/expenses (app.py): inserts a new
expense owned by the current user. -/
def add_expense (u : Nat) (d : ExpenseData) (s : Store) : Store :=
  { s with expenses := s.expenses ++
      [{ id := freshId (s.expenses.map Expense.id), description := d.description,
         amount := d.amount, category := d.category, date := d.date, user_id := u }] }

/-- Handler add_income of POST /api/incomes (app.py). -/
def add_income (u : Nat) (d : IncomeData) (s : Store) : Store :=
  { s with incomes := s.incomes ++
      [{ id := freshId (s.incomes.map Income.id), description := d.description,
         amount := d.amount, category := d.category, date := d.date, user_id := u }] }

/-- Handler add_goal of POST /api/goals (app.py). -/
def add_goal (u : Nat) (d : GoalData) (s : Store) : Store :=
  { s with goals := s.goals ++
      [{ id := freshId (s.goals.map Goal.id), name := d.name,
         target_amount := d.target_amount, current_amount := d.current_amount,
         target_date := d.target_date, description := d.description, user_id := u }] }

/-- Handler add_investment of POST /api/investments (app.py). -/
def add_investment (u : Nat) (d : InvestmentData) (s : Store) : Store :=
  { s with investments := s.investments ++
      [{ id := freshId (s.investments.map Investment.id), name := d.name,
         type := d.type, amount := d.amount, purchase_date := d.purchase_date,
         current_value := d.current_value, notes := d.notes, user_id := u }] }

/-- The shared shape of the four JSON delete handlers (app.py):
Query.filter_by(...).first() is find?, db.session.delete of the fetched row
is eraseP of the first match; a miss leaves the table as it was and the
Bool (the success flag of the response) is False. -/
def deleteFrom {α : Type} (mt : α → Bool) (l : List α) : Bool × List α :=
  match l.find? mt with
  | some _ => (true, l.eraseP mt)
  | none => (false, l)

/-- The shared shape of the two JSON update handlers (app.py):
find the row by id and owner, patch it in place on a hit. -/
def updateIn {α : Type} (mt : α → Bool) (f : α → α) (l : List α) : Bool × List α :=
  match l.find? mt with
  | some _ => (true, updateFirst mt f l)
  | none => (false, l)

/-- Handler delete_expense of DELETE /api/expenses/id (app.py): looks up the
record by id and owner; deletes it on a hit, answers 404 otherwise.
The Bool is True exactly on the success response. -/
def delete_expense (u rid : Nat) (s : Store) : Bool × Store :=
  let r := deleteFrom (fun e => e.id == rid && e.user_id == u) s.expenses
  (r.1, { s with expenses := r.2 })

/-- Handler delete_income of DELETE /api/incomes/id (app.py). -/
def delete_income (u rid : Nat) (s : Store) : Bool × Store :=
  let r := deleteFrom (fun i => i.id == rid && i.user_id == u) s.incomes
  (r.1, { s with incomes := r.2 })

/-- Handler delete_goal of DELETE /api/goals/id (app.py). -/
def delete_goal (u rid : Nat) (s : Store) : Bool × Store :=
  let r := deleteFrom (fun g => g.id == rid && g.user_id == u) s.goals
  (r.1, { s with goals := r.2 })

/-- Handler delete_investment of DELETE /api/investments/id (app.py). -/
def delete_investment (u rid : Nat) (s : Store) : Bool × Store :=
  let r := deleteFrom (fun v => v.id == rid && v.user_id == u) s.investments
  (r.1, { s with investments := r.2 })

/-- Request body of PUT /api/goals/id: each present JSON key patches one
field (a present target_date may itself be null). -/
structure GoalPatch where
  name : Option String
  target_amount : Option ℚ
  current_amount : Option ℚ
  target_date : Option (Option Nat)
  description : Option String
deriving DecidableEq

/-- Field-by-field patch of a fetched goal (update_goal, app.py). -/
def applyGoalPatch (p : GoalPatch) (g : Goal) : Goal :=
  { g with
    name := p.name.getD g.name
    target_amount := p.target_amount.getD g.target_amount
    current_amount := p.current_amount.getD g.current_amount
    target_date := p.target_date.getD g.target_date
    description := p.description.getD g.description }

/-- Handler update_goal of PUT /api/goals/id (app.py). -/
def update_goal (u gid : Nat) (p : GoalPatch) (s : Store) : Bool × Store :=
  let r := updateIn (fun g => g.id == gid && g.user_id == u) (applyGoalPatch p) s.goals
  (r.1, { s with goals := r.2 })

/-- Request body of PUT /api/investments/id. -/
structure InvestmentPatch where
  name : Option String
  type : Option String
  amount : Option ℚ
  purchase_date : Option Nat
  current_value : Option ℚ
  notes : Option String
deriving DecidableEq

/-- Field-by-field patch of a fetched investment (update_investment, app.py). -/
def applyInvestmentPatch (p : InvestmentPatch) (v : Investment) : Investment :=
  { v with
    name := p.name.getD v.name
    type := p.type.getD v.type
    amount := p.amount.getD v.amount
    purchase_date := p.purchase_date.getD v.purchase_date
    current_value := p.current_value.getD v.current_value
    notes := p.notes.getD v.notes }

/-- Handler update_investment of PUT /api/investments/id (app.py). -/
def update_investment (u vid : Nat) (p : InvestmentPatch) (s : Store) : Bool × Store :=
  let r := updateIn (fun v => v.id == vid && v.user_id == u)
    (applyInvestmentPatch p) s.investments
  (r.1, { s with investments := r.2 })

/-- One iteration of the update loop of update_budget (app.py): update the
user's budget row for the category if it exists, else insert a new one. -/
def budgetStep (u : Nat) (bs : List Budget) (ca : String × ℚ) : List Budget :=
  if bs.any (fun b => b.category == ca.1 && b.user_id == u) then
    updateFirst (fun b => b.category == ca.1 && b.user_id == u)
      (fun b => { b with amount := ca.2 }) bs
  else bs ++ [{ id := freshId (bs.map Budget.id), category := ca.1, amount := ca.2, user_id := u }]

/-- Handler update_budget of POST /api/budget (app.py). -/
def update_budget (u : Nat) (data : List (String × ℚ)) (s : Store) : Store :=
  { s with budgets := data.foldl (budgetStep u) s.budgets }

/-! ### List (GET) endpoints: the JSON views of the user's records -/

/-- JSON object produced for one expense by get_expenses (app.py); the
user_id column is not serialised and the date is echoed as stored. -/
structure ExpenseOut where
  id : Nat
  description : String
  amount : ℚ
  category : String
  date : Nat
deriving DecidableEq

/-- Per-record serialisation of get_expenses (app.py). -/
def expenseToJson (e : Expense) : ExpenseOut :=
  { id := e.id, description := e.description, amount := e.amount,
    category := e.category, date := e.date }

/-- Handler get_expenses of GET /api/expenses (app.py). -/
def get_expenses (u : Nat) (s : Store) : List ExpenseOut :=
  (userExpenses u s).map expenseToJson

/-- JSON object produced for one income by get_incomes (app.py). -/
structure IncomeOut where
  id : Nat
  description : String
  amount : ℚ
  category : String
  date : Nat
deriving DecidableEq

/-- Per-record serialisation of get_incomes (app.py). -/
def incomeToJson (i : Income) : IncomeOut :=
  { id := i.id, description := i.description, amount := i.amount,
    category := i.category, date := i.date }

/-- Handler get_incomes of GET /api/incomes (app.py). -/
def get_incomes (u : Nat) (s : Store) : List IncomeOut :=
  (userIncomes u s).map incomeToJson

/-- JSON object produced for one goal by get_goals (app.py). -/
structure GoalOut where
  id : Nat
  name : String
  target_amount : ℚ
  current_amount : ℚ
  target_date : Option Nat
  description : String
deriving DecidableEq

/-- Per-record serialisation of get_goals (app.py). -/
def goalToJson (g : Goal) : GoalOut :=
  { id := g.id, name := g.name, target_amount := g.target_amount,
    current_amount := g.current_amount, target_date := g.target_date,
    description := g.description }

/-- Handler get_goals of GET /api/goals (app.py). -/
def get_goals (u : Nat) (s : Store) : List GoalOut :=
  (userGoals u s).map goalToJson

/-- JSON object produced for one investment by get_investments (app.py). -/
structure InvestmentOut where
  id : Nat
  name : String
  type : String
  amount : ℚ
  purchase_date : Nat
  current_value : ℚ
  notes : String
deriving DecidableEq

/-- Per-record serialisation of get_investments (app.py). -/
def investmentToJson (v : Investment) : InvestmentOut :=
  { id := v.id, name := v.name, type := v.type, amount := v.amount,
    purchase_date := v.purchase_date, current_value := v.current_value,
    notes := v.notes }

/-- Handler get_investments of GET /api/investments (app.py). -/
def get_investments (u : Nat) (s : Store) : List InvestmentOut :=
  (userInvestments u s).map investmentToJson

/-! ### Authentication: register and login -/

/-- Outcome of the register handler (app.py): the two duplicate checks, in
the order the code runs them, and success. -/
inductive RegisterResult where
  | usernameExists
  | emailExists
  | success
deriving DecidableEq

/-- Handler register of POST /register (app.py). Password hashing
(generate_password_hash) happens outside the model; the handler receives
the hash it would store. The 14 default budgets are created with fresh
autoincrement ids for the new user. -/
def register (username email password_hash : String) (s : Store) : RegisterResult × Store :=
  if s.users.any (fun us => us.username == username) then (.usernameExists, s)
  else if s.users.any (fun us => us.email == email) then (.emailExists, s)
  else
    let uid := freshId (s.users.map User.id)
    let bid := freshId (s.budgets.map Budget.id)
    let newBudgets := default_expense_categories.enum.map
      (fun p => ({ id := bid + p.1, category := p.2, amount := 0, user_id := uid } : Budget))
    (.success,
     { s with
       users := s.users ++ [{ id := uid, username := username, email := email,
                              password_hash := password_hash }]
       budgets := s.budgets ++ newBudgets })

/-- Outcome of the login handler (app.py): either a session identity for a
user id, or the invalid-credentials flash. -/
inductive LoginResult where
  | success : Nat → LoginResult
  | invalid
deriving DecidableEq

/-- Handler login of POST /login (app.py). `check` models
werkzeug's check_password_hash(stored_hash, submitted_password). -/
def login (check : String → String → Bool) (username password : String) (s : Store) :
    LoginResult :=
  match s.users.find? (fun us => us.username == username) with
  | some us => if check us.password_hash password then .success us.id else .invalid
  | none => .invalid

/-- Everything in the store that does not belong to user u: the user table
and every other user's records in the five data tables. -/
def othersView (u : Nat) (s : Store) :
    List User × List Expense × List Income × List Goal × List Investment × List Budget :=
  (s.users,
   s.expenses.filter (fun e => !(e.user_id == u)),
   s.incomes.filter (fun i => !(i.user_id == u)),
   s.goals.filter (fun g => !(g.user_id == u)),
   s.investments.filter (fun v => !(v.user_id == u)),
   s.budgets.filter (fun b => !(b.user_id == u)))

/-! ### The suggestions page

A suggestion is modelled by its title and bootstrap type; the description
strings of app.py are pure numeric formatting of quantities already present
in the model and carry no further data. -/

/-- One entry of the suggestions list (app.py suggestions handler). -/
structure Suggestion where
  title : String
  stype : String
deriving DecidableEq

/-- Python max(d.items(), key=lambda x: x[1]) on a nonempty dict:
the first entry with the largest value. -/
def maxBySnd : List (String × ℚ) → Option (String × ℚ)
  | [] => none
  | p :: m => some (m.foldl (fun acc q => if q.2 > acc.2 then q else acc) p)

/-- The income/expense-ratio block of the suggestions handler
(app.py lines 713-727). -/
def fracSuggestions (total_expenses total_income : ℚ) : List Suggestion :=
  if total_income > 0 then
    let frac := total_expenses / total_income
    if frac > 9/10 then [{ title := "Reduce Expenses", stype := "warning" }]
    else if frac < 1/2 then [{ title := "Great Savings Rate", stype := "success" }]
    else []
  else []

/-- The emergency-fund block (app.py lines 729-735). -/
def emergencySuggestions (user_investments : List Investment) : List Suggestion :=
  if user_investments.isEmpty then
    [{ title := "Start an Emergency Fund", stype := "info" }]
  else []

/-- The diversification block (app.py lines 737-744); set(...) of the
investment types is modelled by dedup. -/
def diversifySuggestions (user_investments : List Investment) : List Suggestion :=
  if (user_investments.map Investment.type).dedup.length < 3 &&
      !user_investments.isEmpty then
    [{ title := "Diversify Investments", stype := "info" }]
  else []

/-- The high-expense-category block (app.py lines 746-755). -/
def highCategorySuggestions (es : List Expense) : List Suggestion :=
  match maxBySnd (expense_by_category es) with
  | some hc =>
      if hc.2 > sumExpenseAmounts es * (2/5) then
        [{ title := "High " ++ hc.1 ++ " Expenses", stype := "warning" }]
      else []
  | none => []

/-- Goal progress as the suggestions handler computes it
(app.py line 761): current/target guarded by target > 0. -/
def goal_progress (g : Goal) : ℚ :=
  if g.target_amount > 0 then g.current_amount / g.target_amount else 0

/-- The goal-progress loop (app.py lines 757-768). -/
def goalSuggestions (gs : List Goal) : List Suggestion :=
  gs.filterMap (fun g =>
    if goal_progress g < 1/4 then
      some { title := "Goal: " ++ g.name, stype := "warning" }
    else none)

/-- The fallback suggestions used when nothing else fired
(app.py lines 770-788). -/
def defaultSuggestions : List Suggestion :=
  [{ title := "Track Your Expenses", stype := "info" },
   { title := "Set Financial Goals", stype := "info" },
   { title := "Create a Budget", stype := "info" }]

/-- The full suggestions list for one user's record sets (app.py
suggestions handler), blocks in program order, then the fallback. -/
def suggestionsList (es : List Expense) (xs : List Income) (gs : List Goal)
    (vs : List Investment) : List Suggestion :=
  let l := fracSuggestions (sumExpenseAmounts es) (sumIncomeAmounts xs)
        ++ emergencySuggestions vs ++ diversifySuggestions vs
        ++ highCategorySuggestions es ++ goalSuggestions gs
  if l.isEmpty then defaultSuggestions else l

/-- Handler suggestions of GET /suggestions (app.py). -/
def suggestions_page (u : Nat) (s : Store) : List Suggestion :=
  suggestionsList (userExpenses u s) (userIncomes u s) (userGoals u s) (userInvestments u s)

/-! ### The budget planner page -/

/-- Python dict assignment d[k] = v on the association list:
overwrite the first occurrence, append when absent. -/
def dictSet : List (String × ℚ) → String → ℚ → List (String × ℚ)
  | [], k, v => [(k, v)]
  | p :: m, k, v => if p.1 = k then (p.1, v) :: m else p :: dictSet m k v

/-- budget_dict of budget_planner (app.py line 800): category-to-amount
dict of the user's budget rows, later rows overwriting earlier ones. -/
def budgetDict (bs : List Budget) : List (String × ℚ) :=
  bs.foldl (fun m b => dictSet m b.category b.amount) []

/-- The ensure-all-categories loop of budget_planner (app.py lines 802-811):
missing default categories are added to the dict with amount 0. -/
def ensureDefaults (m : List (String × ℚ)) : List (String × ℚ) :=
  default_expense_categories.foldl
    (fun m c => if m.any (fun p => p.1 == c) then m else m ++ [(c, 0)]) m

/-- One iteration of the spending loop of budget_planner (app.py lines
840-843): an expense is added only when its category is already a key. -/
def spendStep (m : List (String × ℚ)) (e : Expense) : List (String × ℚ) :=
  if m.any (fun p => p.1 == e.category) then addToGroup m e.category e.amount else m

/-- spending_by_category of budget_planner (app.py lines 838-843):
initialised with every default category at 0, then the spending loop. -/
def spending_by_category (es : List Expense) : List (String × ℚ) :=
  es.foldl spendStep (default_expense_categories.map (fun c => (c, 0)))

/-- The guarded percentage of budget_planner (app.py line 850). -/
def budget_percentage (spent budget : ℚ) : ℚ :=
  if budget > 0 then spent / budget * 100 else 0

/-- The status colour of a budget row (app.py line 857), computed from the
uncapped percentage. -/
def budget_status (percentage : ℚ) : String :=
  if percentage > 100 then "danger"
  else if percentage > 70 then "warning"
  else "success"

/-- One row of the budget page table (app.py lines 852-858). -/
structure BudgetEntry where
  category : String
  budget_amount : ℚ
  spent_amount : ℚ
  percentage : ℚ
  status : String
deriving DecidableEq

/-- budget_data of budget_planner (app.py lines 846-858): one row per
default category; the displayed percentage is capped at 100. -/
def budget_data (bs : List Budget) (es : List Expense) : List BudgetEntry :=
  let bd := ensureDefaults (budgetDict bs)
  let sp := spending_by_category es
  default_expense_categories.map (fun c =>
    let budget_amount := groupVal bd c
    let spent_amount := groupVal sp c
    let percentage := budget_percentage spent_amount budget_amount
    { category := c, budget_amount := budget_amount, spent_amount := spent_amount,
      percentage := min percentage 100, status := budget_status percentage })

/-! ### The division guards of the aggregation logic (for the safety claim) -/

/-- Path condition of the expense-ratio division (app.py line 714-715):
the division total_expenses / total_income runs only under this guard. -/
def expense_frac_guard (xs : List Income) : Prop := sumIncomeAmounts xs > 0

/-- Path condition of the goal-progress division (app.py line 761). -/
def goal_progress_guard (g : Goal) : Prop := g.target_amount > 0

/-- Path condition of the budget-percentage division (app.py line 850). -/
def budget_percentage_guard (budget : ℚ) : Prop := budget > 0

/-- Value of the highest expense category (the divisor-side data of the
high-category suggestion, app.py lines 747-753). -/
def highestCategoryValue (es : List Expense) : ℚ :=
  match maxBySnd (expense_by_category es) with
  | some p => p.2
  | none => 0

/-- Path condition of the highest-category-share division (app.py lines
747-753): the division highest/total runs exactly when the grouping dict is
nonempty and the highest category exceeds 40 percent of the total. -/
def highest_share_guard (es : List Expense) : Prop :=
  expense_by_category es ≠ [] ∧
    highestCategoryValue es > sumExpenseAmounts es * (2/5)

/-! ### Concrete record sets, used to evaluate the theorems on closed inputs -/

/-- Two expenses of one user whose amounts cancel: category A holds 5,
category B holds -5, total 0. -/
def cexExpenses : List Expense :=
  [{ id := 1, description := "a", amount := 5, category := "A", date := 0, user_id := 1 },
   { id := 2, description := "b", amount := -5, category := "B", date := 0, user_id := 1 }]

/-- Two nonnegative expenses with one dominant category. -/
def posExpenses : List Expense :=
  [{ id := 1, description := "rent", amount := 6, category := "Housing", date := 0, user_id := 1 },
   { id := 2, description := "food", amount := 1, category := "Food", date := 0, user_id := 1 }]

/-- A store holding a single expense owned by user 1. -/
def oneExpenseStore : Store :=
  { users := [], incomes := [], goals := [], investments := [], budgets := [],
    expenses := [{ id := 1, description := "rent", amount := 3, category := "Housing",
                   date := 0, user_id := 1 }] }

/-- A store holding a single registered user. -/
def oneUserStore : Store :=
  { users := [{ id := 7, username := "alice", email := "alice@example.com",
                password_hash := "h1" }],
    expenses := [], incomes := [], goals := [], investments := [], budgets := [] }

/-- The empty database. -/
def emptyStore : Store :=
  { users := [], expenses := [], incomes := [], goals := [], investments := [], budgets := [] }

/-- One salary payment of 100. -/
def salaryIncomes : List Income :=
  [{ id := 1, description := "salary", amount := 100, category := "Salary",
     date := 0, user_id := 1 }]

/-- One expense of 95, which is more than 90 percent of an income of 100. -/
def heavyExpenses : List Expense :=
  [{ id := 1, description := "stuff", amount := 95, category := "Personal",
     date := 0, user_id := 1 }]

/-- An expense in a category that is not one of the 14 defaults. -/
def coffeeExpense : Expense :=
  { id := 9, description := "espresso", amount := 2, category := "Coffee",
    date := 0, user_id := 1 }

/-! ### Core lemmas about the grouping dict -/

theorem sumVals_addToGroup (m : List (String × ℚ)) (k : String) (v : ℚ) :
    sumVals (addToGroup m k v) = sumVals m + v := by
  induction m with
  | nil => simp [addToGroup, sumVals]
  | cons p m ih =>
    by_cases h : p.1 = k
    · simp [addToGroup, h, sumVals, add_assoc, add_comm, add_left_comm]
    · simp [addToGroup, h, sumVals] at ih ⊢
      rw [ih]; ring

theorem groupVal_addToGroup (m : List (String × ℚ)) (k : String) (v : ℚ) (c : String) :
    groupVal (addToGroup m k v) c =
      if c = k then groupVal m c + v else groupVal m c := by
  induction m with
  | nil =>
    by_cases h : c = k
    · simp [addToGroup, groupVal, h]
    · have h2 : ¬(k = c) := fun hk => h hk.symm
      simp [addToGroup, groupVal, h, h2]
  | cons p m ih =>
    by_cases hp : p.1 = k
    · by_cases hc : c = k
      · have hpc : p.1 = c := hp.trans hc.symm
        simp [addToGroup, hp, hc, groupVal, hpc]
      · have hpc : ¬(p.1 = c) := fun h => hc (hp ▸ h).symm
        have hkc : ¬(k = c) := fun h => hc h.symm
        simp [addToGroup, hp, hc, groupVal, hpc, hkc]
    · by_cases hpc : p.1 = c
      · have hc : ¬(c = k) := fun h => hp (hpc.trans h)
        simp [addToGroup, hp, hc, groupVal, hpc]
      · simp [addToGroup, hp, groupVal, hpc, ih]

theorem groupVal_foldl (pairs : List (String × ℚ)) :
    ∀ (m : List (String × ℚ)) (c : String),
      groupVal (pairs.foldl (fun m p => addToGroup m p.1 p.2) m) c =
        groupVal m c + ((pairs.filter (fun p => p.1 == c)).map Prod.snd).sum := by
  induction pairs with
  | nil => intro m c; simp
  | cons p pairs ih =>
    intro m c
    simp only [List.foldl_cons, ih]
    rw [groupVal_addToGroup]
    by_cases h : c = p.1
    · simp [List.filter, beq_iff_eq, h, add_assoc, add_comm, add_left_comm]
    · have : ¬(p.1 == c) = true := by simp [beq_iff_eq]; intro h2; exact absurd h2.symm h
      simp [List.filter, this, h]

theorem sumVals_foldl (pairs : List (String × ℚ)) :
    ∀ m : List (String × ℚ),
      sumVals (pairs.foldl (fun m p => addToGroup m p.1 p.2) m) =
        sumVals m + (pairs.map Prod.snd).sum := by
  induction pairs with
  | nil => intro m; simp
  | cons p pairs ih =>
    intro m
    simp only [List.foldl_cons, ih, sumVals_addToGroup, List.map_cons, List.sum_cons]
    ring

theorem groupVal_groupBy (pairs : List (String × ℚ)) (c : String) :
    groupVal (groupBy pairs) c = ((pairs.filter (fun p => p.1 == c)).map Prod.snd).sum := by
  simpa [groupVal] using groupVal_foldl pairs [] c

theorem sumVals_groupBy (pairs : List (String × ℚ)) :
    sumVals (groupBy pairs) = (pairs.map Prod.snd).sum := by
  simpa [sumVals] using sumVals_foldl pairs []

theorem grouped_sum {α : Type} (key : α → String) (val : α → ℚ) (l : List α) (c : String) :
    groupVal (groupBy (l.map (fun a => (key a, val a)))) c
      = ((l.filter (fun a => key a == c)).map val).sum := by
  rw [groupVal_groupBy]
  induction l with
  | nil => rfl
  | cons a l ih =>
    by_cases h : (key a == c) = true <;>
      simp [List.filter_cons, h, ih]

theorem grouped_total {α : Type} (key : α → String) (val : α → ℚ) (l : List α) :
    sumVals (groupBy (l.map (fun a => (key a, val a)))) = (l.map val).sum := by
  rw [sumVals_groupBy, List.map_map]
  rfl

/-! ## Helper lemmas: filters against erasure, update and append -/

theorem filter_eraseP {α : Type} (q p : α → Bool) :
    ∀ l : List α, (∀ x ∈ l, p x = true → q x = false) →
      (l.eraseP p).filter q = l.filter q := by
  intro l
  induction l with
  | nil => intro _; rfl
  | cons x xs ih =>
    intro h
    by_cases hp : p x = true
    · have hq := h x (List.mem_cons_self x xs) hp
      simp [List.eraseP_cons, hp, List.filter_cons, hq]
    · have hp2 : p x = false := by
        cases hpx : p x
        · rfl
        · exact absurd hpx hp
      rw [List.eraseP_cons]
      simp only [hp2, cond_false]
      rw [List.filter_cons, List.filter_cons,
        ih (fun y hy hpy => h y (List.mem_cons_of_mem _ hy) hpy)]

theorem filter_updateFirst {α : Type} (q p : α → Bool) (f : α → α) :
    ∀ l : List α, (∀ x ∈ l, p x = true → (q x = false ∧ q (f x) = false)) →
      (updateFirst p f l).filter q = l.filter q := by
  intro l
  induction l with
  | nil => intro _; rfl
  | cons x xs ih =>
    intro h
    by_cases hp : p x = true
    · obtain ⟨h1, h2⟩ := h x (List.mem_cons_self x xs) hp
      simp [updateFirst, hp, List.filter_cons, h1, h2]
    · have hp2 : p x = false := by
        cases hpx : p x
        · rfl
        · exact absurd hpx hp
      have ih2 := ih (fun y hy hpy => h y (List.mem_cons_of_mem _ hy) hpy)
      simp [updateFirst, hp2, List.filter_cons, ih2]

theorem filter_append_one {α : Type} (q : α → Bool) (l : List α) (x : α)
    (h : q x = false) : (l ++ [x]).filter q = l.filter q := by
  simp [List.filter_append, List.filter_cons, h]

theorem deleteFrom_fst {α : Type} (m : α → Bool) (l : List α) :
    (deleteFrom m l).1 = true ↔ ∃ x ∈ l, m x = true := by
  cases hfind : l.find? m with
  | none =>
    simp only [deleteFrom, hfind]
    constructor
    · intro h; exact absurd h (by simp)
    · rintro ⟨x, hx, hm⟩
      exact absurd hm (List.find?_eq_none.mp hfind x hx)
  | some a =>
    simp only [deleteFrom, hfind]
    exact iff_of_true (by trivial)
      ⟨a, List.mem_of_find?_eq_some hfind, List.find?_some hfind⟩

theorem deleteFrom_miss {α : Type} (m : α → Bool) (l : List α)
    (h : (deleteFrom m l).1 = false) : (deleteFrom m l).2 = l := by
  cases hfind : l.find? m with
  | none => simp only [deleteFrom, hfind]
  | some a => simp only [deleteFrom, hfind] at h; exact absurd h (by simp)

theorem deleteFrom_hit {α : Type} (m : α → Bool) (l : List α)
    (h : (deleteFrom m l).1 = true) :
    ∃ a l₁ l₂, m a = true ∧ (∀ b ∈ l₁, ¬ m b = true) ∧
      l = l₁ ++ a :: l₂ ∧ (deleteFrom m l).2 = l₁ ++ l₂ := by
  cases hfind : l.find? m with
  | none => simp only [deleteFrom, hfind] at h; exact absurd h (by simp)
  | some a =>
    obtain ⟨a2, l₁, l₂, h1, h2, h3, h4⟩ :=
      List.exists_of_eraseP (List.mem_of_find?_eq_some hfind) (List.find?_some hfind)
    exact ⟨a2, l₁, l₂, h2, h1, h3, by simp only [deleteFrom, hfind]; exact h4⟩

theorem filter_deleteFrom {α : Type} (q m : α → Bool) (l : List α)
    (h : ∀ x ∈ l, m x = true → q x = false) :
    ((deleteFrom m l).2).filter q = l.filter q := by
  cases hfind : l.find? m with
  | none => simp only [deleteFrom, hfind]
  | some a => simp only [deleteFrom, hfind]; exact filter_eraseP q m l h

theorem filter_updateIn {α : Type} (q m : α → Bool) (f : α → α) (l : List α)
    (h : ∀ x ∈ l, m x = true → (q x = false ∧ q (f x) = false)) :
    ((updateIn m f l).2).filter q = l.filter q := by
  cases hfind : l.find? m with
  | none => simp only [updateIn, hfind]
  | some a => simp only [updateIn, hfind]; exact filter_updateFirst q m f l h

theorem filter_budget_foldl (u : Nat) :
    ∀ (data : List (String × ℚ)) (bs : List Budget),
      (data.foldl (budgetStep u) bs).filter (fun b => !(b.user_id == u))
        = bs.filter (fun b => !(b.user_id == u)) := by
  intro data
  induction data with
  | nil => intro bs; rfl
  | cons ca data ih =>
    intro bs
    rw [List.foldl_cons, ih]
    unfold budgetStep
    by_cases hm : bs.any (fun b => b.category == ca.1 && b.user_id == u) = true
    · rw [if_pos hm]
      exact filter_updateFirst _ _ _ bs (fun x _ hpx => by
        have h2 : (x.user_id == u) = true := (by simpa using hpx : _ ∧ (x.user_id == u) = true).2
        exact ⟨by simp [h2], by simp [h2]⟩)
    · rw [if_neg hm]
      exact filter_append_one _ bs _ (by simp)

/-! ## The claims -/

/-- C1: per-user ownership isolation. Every modelled list endpoint returns
exactly the requesting user's records, and no modelled mutating handler
invoked by user u changes the user table or any other user's records in
any of the five data tables. -/
theorem per_user_isolation (u : Nat) (s : Store) :
    (∀ o : ExpenseOut, o ∈ get_expenses u s ↔
        ∃ e ∈ s.expenses, e.user_id = u ∧ o = expenseToJson e)
  ∧ (∀ o : IncomeOut, o ∈ get_incomes u s ↔
        ∃ i ∈ s.incomes, i.user_id = u ∧ o = incomeToJson i)
  ∧ (∀ o : GoalOut, o ∈ get_goals u s ↔
        ∃ g ∈ s.goals, g.user_id = u ∧ o = goalToJson g)
  ∧ (∀ o : InvestmentOut, o ∈ get_investments u s ↔
        ∃ v ∈ s.investments, v.user_id = u ∧ o = investmentToJson v)
  ∧ (∀ d, othersView u (add_expense u d s) = othersView u s)
  ∧ (∀ d, othersView u (add_income u d s) = othersView u s)
  ∧ (∀ d, othersView u (add_goal u d s) = othersView u s)
  ∧ (∀ d, othersView u (add_investment u d s) = othersView u s)
  ∧ (∀ rid, othersView u (delete_expense u rid s).2 = othersView u s)
  ∧ (∀ rid, othersView u (delete_income u rid s).2 = othersView u s)
  ∧ (∀ rid, othersView u (delete_goal u rid s).2 = othersView u s)
  ∧ (∀ rid, othersView u (delete_investment u rid s).2 = othersView u s)
  ∧ (∀ gid p, othersView u (update_goal u gid p s).2 = othersView u s)
  ∧ (∀ vid p, othersView u (update_investment u vid p s).2 = othersView u s)
  ∧ (∀ data, othersView u (update_budget u data s) = othersView u s) := by
  refine ⟨?_, ?_, ?_, ?_, ?_, ?_, ?_, ?_, ?_, ?_, ?_, ?_, ?_, ?_, ?_⟩
  · intro o
    simp only [get_expenses, userExpenses]
    constructor
    · intro ho
      obtain ⟨e, he, rfl⟩ := List.mem_map.mp ho
      have h2 := List.mem_filter.mp he
      exact ⟨e, h2.1, by simpa using h2.2, rfl⟩
    · rintro ⟨e, he, hu, rfl⟩
      exact List.mem_map.mpr ⟨e, List.mem_filter.mpr ⟨he, by simpa using hu⟩, rfl⟩
  · intro o
    simp only [get_incomes, userIncomes]
    constructor
    · intro ho
      obtain ⟨i, hi, rfl⟩ := List.mem_map.mp ho
      have h2 := List.mem_filter.mp hi
      exact ⟨i, h2.1, by simpa using h2.2, rfl⟩
    · rintro ⟨i, hi, hu, rfl⟩
      exact List.mem_map.mpr ⟨i, List.mem_filter.mpr ⟨hi, by simpa using hu⟩, rfl⟩
  · intro o
    simp only [get_goals, userGoals]
    constructor
    · intro ho
      obtain ⟨g, hg, rfl⟩ := List.mem_map.mp ho
      have h2 := List.mem_filter.mp hg
      exact ⟨g, h2.1, by simpa using h2.2, rfl⟩
    · rintro ⟨g, hg, hu, rfl⟩
      exact List.mem_map.mpr ⟨g, List.mem_filter.mpr ⟨hg, by simpa using hu⟩, rfl⟩
  · intro o
    simp only [get_investments, userInvestments]
    constructor
    · intro ho
      obtain ⟨v, hv, rfl⟩ := List.mem_map.mp ho
      have h2 := List.mem_filter.mp hv
      exact ⟨v, h2.1, by simpa using h2.2, rfl⟩
    · rintro ⟨v, hv, hu, rfl⟩
      exact List.mem_map.mpr ⟨v, List.mem_filter.mpr ⟨hv, by simpa using hu⟩, rfl⟩
  · intro d; simp [othersView, add_expense, List.filter_append, List.filter_cons]
  · intro d; simp [othersView, add_income, List.filter_append, List.filter_cons]
  · intro d; simp [othersView, add_goal, List.filter_append, List.filter_cons]
  · intro d; simp [othersView, add_investment, List.filter_append, List.filter_cons]
  · intro rid
    have hf := filter_deleteFrom (fun e : Expense => !(e.user_id == u))
      (fun e => e.id == rid && e.user_id == u) s.expenses
      (fun x _ hm => by
        have h2 : (x.user_id == u) = true := (by simpa using hm : _ ∧ (x.user_id == u) = true).2
        simp [h2])
    simp [othersView, delete_expense, hf]
  · intro rid
    have hf := filter_deleteFrom (fun i : Income => !(i.user_id == u))
      (fun i => i.id == rid && i.user_id == u) s.incomes
      (fun x _ hm => by
        have h2 : (x.user_id == u) = true := (by simpa using hm : _ ∧ (x.user_id == u) = true).2
        simp [h2])
    simp [othersView, delete_income, hf]
  · intro rid
    have hf := filter_deleteFrom (fun g : Goal => !(g.user_id == u))
      (fun g => g.id == rid && g.user_id == u) s.goals
      (fun x _ hm => by
        have h2 : (x.user_id == u) = true := (by simpa using hm : _ ∧ (x.user_id == u) = true).2
        simp [h2])
    simp [othersView, delete_goal, hf]
  · intro rid
    have hf := filter_deleteFrom (fun v : Investment => !(v.user_id == u))
      (fun v => v.id == rid && v.user_id == u) s.investments
      (fun x _ hm => by
        have h2 : (x.user_id == u) = true := (by simpa using hm : _ ∧ (x.user_id == u) = true).2
        simp [h2])
    simp [othersView, delete_investment, hf]
  · intro gid p
    have hf := filter_updateIn (fun g : Goal => !(g.user_id == u))
      (fun g => g.id == gid && g.user_id == u) (applyGoalPatch p) s.goals
      (fun x _ hm => by
        have h2 : (x.user_id == u) = true := (by simpa using hm : _ ∧ (x.user_id == u) = true).2
        exact ⟨by simp [h2], by simp [applyGoalPatch, h2]⟩)
    simp [othersView, update_goal, hf]
  · intro vid p
    have hf := filter_updateIn (fun v : Investment => !(v.user_id == u))
      (fun v => v.id == vid && v.user_id == u) (applyInvestmentPatch p) s.investments
      (fun x _ hm => by
        have h2 : (x.user_id == u) = true := (by simpa using hm : _ ∧ (x.user_id == u) = true).2
        exact ⟨by simp [h2], by simp [applyInvestmentPatch, h2]⟩)
    simp [othersView, update_investment, hf]
  · intro data
    simp [othersView, update_budget, filter_budget_foldl u data s.budgets]

/-- C2: GET /api/summary reports total_expenses, total_income and
total_investments as the sums over exactly the requesting user's records,
and net_worth as total_income - total_expenses + total_investments. -/
theorem summary_totals_correct (u : Nat) (s : Store) :
    (get_financial_summary u s).total_expenses
        = ((s.expenses.filter (fun e => e.user_id == u)).map Expense.amount).sum
  ∧ (get_financial_summary u s).total_income
        = ((s.incomes.filter (fun i => i.user_id == u)).map Income.amount).sum
  ∧ (get_financial_summary u s).total_investments
        = ((s.investments.filter (fun v => v.user_id == u)).map Investment.current_value).sum
  ∧ (get_financial_summary u s).net_worth
        = (get_financial_summary u s).total_income
            - (get_financial_summary u s).total_expenses
            + (get_financial_summary u s).total_investments :=
  ⟨rfl, rfl, rfl, rfl⟩

/-- C3: category grouping is a sum homomorphism. Every category of the
grouping dict carries the sum of the amounts of exactly the records with
that category, and the values of the dict sum to the overall total; for
expenses and income by category and for investments by type over
current_value. -/
theorem grouping_is_sum_homomorphism :
    (∀ (es : List Expense) (c : String),
        groupVal (expense_by_category es) c
          = ((es.filter (fun e => e.category == c)).map Expense.amount).sum)
  ∧ (∀ es : List Expense, sumVals (expense_by_category es) = sumExpenseAmounts es)
  ∧ (∀ (xs : List Income) (c : String),
        groupVal (income_by_category xs) c
          = ((xs.filter (fun i => i.category == c)).map Income.amount).sum)
  ∧ (∀ xs : List Income, sumVals (income_by_category xs) = sumIncomeAmounts xs)
  ∧ (∀ (vs : List Investment) (t : String),
        groupVal (investments_by_type vs) t
          = ((vs.filter (fun v => v.type == t)).map Investment.current_value).sum)
  ∧ (∀ vs : List Investment, sumVals (investments_by_type vs) = sumInvestmentValues vs) := by
  refine ⟨?_, ?_, ?_, ?_, ?_, ?_⟩
  · intro es c
    simpa only [expense_by_category] using grouped_sum Expense.category Expense.amount es c
  · intro es
    simpa only [expense_by_category] using grouped_total Expense.category Expense.amount es
  · intro xs c
    simpa only [income_by_category] using grouped_sum Income.category Income.amount xs c
  · intro xs
    simpa only [income_by_category] using grouped_total Income.category Income.amount xs
  · intro vs t
    simpa only [investments_by_type] using
      grouped_sum Investment.type Investment.current_value vs t
  · intro vs
    simpa only [investments_by_type] using
      grouped_total Investment.type Investment.current_value vs

/-- C4: the summary net worth equals the dashboard net worth plus the sum
of the user's investments' current values, so the two agree exactly when
that investment sum is zero. -/
theorem summary_net_worth_vs_dashboard (u : Nat) (s : Store) :
    (get_financial_summary u s).net_worth
        = index_net_worth u s + sumInvestmentValues (userInvestments u s)
  ∧ ((get_financial_summary u s).net_worth = index_net_worth u s
        ↔ sumInvestmentValues (userInvestments u s) = 0) := by
  have h1 : (get_financial_summary u s).net_worth
      = sumIncomeAmounts (userIncomes u s) - sumExpenseAmounts (userExpenses u s)
          + sumInvestmentValues (userInvestments u s) := rfl
  constructor
  · rw [h1]; unfold index_net_worth; ring
  · rw [h1]; unfold index_net_worth
    constructor
    · intro h; linarith
    · intro h; rw [h]; ring

/-- C5: each JSON delete endpoint succeeds iff the requesting user owns a
record with the given id; on success exactly that record (the first match)
is removed and nothing else changes; on a miss the store is untouched and
the endpoint answers 404. -/
theorem delete_endpoints_correct (u rid : Nat) (s : Store) :
    (((delete_expense u rid s).1 = true ↔
        ∃ e ∈ s.expenses, e.id = rid ∧ e.user_id = u)
     ∧ ((delete_expense u rid s).1 = false → (delete_expense u rid s).2 = s)
     ∧ ((delete_expense u rid s).1 = true →
         ∃ e l₁ l₂, e.id = rid ∧ e.user_id = u
           ∧ (∀ x ∈ l₁, ¬(x.id = rid ∧ x.user_id = u))
           ∧ s.expenses = l₁ ++ e :: l₂
           ∧ (delete_expense u rid s).2 = { s with expenses := l₁ ++ l₂ }))
  ∧ (((delete_income u rid s).1 = true ↔
        ∃ i ∈ s.incomes, i.id = rid ∧ i.user_id = u)
     ∧ ((delete_income u rid s).1 = false → (delete_income u rid s).2 = s)
     ∧ ((delete_income u rid s).1 = true →
         ∃ i l₁ l₂, i.id = rid ∧ i.user_id = u
           ∧ (∀ x ∈ l₁, ¬(x.id = rid ∧ x.user_id = u))
           ∧ s.incomes = l₁ ++ i :: l₂
           ∧ (delete_income u rid s).2 = { s with incomes := l₁ ++ l₂ }))
  ∧ (((delete_goal u rid s).1 = true ↔
        ∃ g ∈ s.goals, g.id = rid ∧ g.user_id = u)
     ∧ ((delete_goal u rid s).1 = false → (delete_goal u rid s).2 = s)
     ∧ ((delete_goal u rid s).1 = true →
         ∃ g l₁ l₂, g.id = rid ∧ g.user_id = u
           ∧ (∀ x ∈ l₁, ¬(x.id = rid ∧ x.user_id = u))
           ∧ s.goals = l₁ ++ g :: l₂
           ∧ (delete_goal u rid s).2 = { s with goals := l₁ ++ l₂ }))
  ∧ (((delete_investment u rid s).1 = true ↔
        ∃ v ∈ s.investments, v.id = rid ∧ v.user_id = u)
     ∧ ((delete_investment u rid s).1 = false → (delete_investment u rid s).2 = s)
     ∧ ((delete_investment u rid s).1 = true →
         ∃ v l₁ l₂, v.id = rid ∧ v.user_id = u
           ∧ (∀ x ∈ l₁, ¬(x.id = rid ∧ x.user_id = u))
           ∧ s.investments = l₁ ++ v :: l₂
           ∧ (delete_investment u rid s).2 = { s with investments := l₁ ++ l₂ })) := by
  refine ⟨⟨?_, ?_, ?_⟩, ⟨?_, ?_, ?_⟩, ⟨?_, ?_, ?_⟩, ⟨?_, ?_, ?_⟩⟩
  · rw [show (delete_expense u rid s).1
        = (deleteFrom (fun e => e.id == rid && e.user_id == u) s.expenses).1 from rfl,
      deleteFrom_fst]
    constructor
    · rintro ⟨x, hx, hm⟩
      rw [Bool.and_eq_true] at hm
      exact ⟨x, hx, by simpa using hm.1, by simpa using hm.2⟩
    · rintro ⟨x, hx, h1, h2⟩
      exact ⟨x, hx, by simp [h1, h2]⟩
  · intro h
    have h2 := deleteFrom_miss (fun e => e.id == rid && e.user_id == u) s.expenses
      (show (deleteFrom (fun e => e.id == rid && e.user_id == u) s.expenses).1 = false from h)
    show ({ s with
      expenses := (deleteFrom (fun e => e.id == rid && e.user_id == u) s.expenses).2 } : Store) = s
    rw [h2]
  · intro h
    obtain ⟨a, l₁, l₂, hma, hl1, hdec, hres⟩ :=
      deleteFrom_hit (fun e => e.id == rid && e.user_id == u) s.expenses
        (show (deleteFrom (fun e => e.id == rid && e.user_id == u) s.expenses).1 = true from h)
    rw [Bool.and_eq_true] at hma
    refine ⟨a, l₁, l₂, by simpa using hma.1, by simpa using hma.2, ?_, hdec, ?_⟩
    · intro x hx hcon
      exact hl1 x hx (by simp [hcon.1, hcon.2])
    · show ({ s with
        expenses := (deleteFrom (fun e => e.id == rid && e.user_id == u) s.expenses).2 } : Store) = _
      rw [hres]
  · rw [show (delete_income u rid s).1
        = (deleteFrom (fun i => i.id == rid && i.user_id == u) s.incomes).1 from rfl,
      deleteFrom_fst]
    constructor
    · rintro ⟨x, hx, hm⟩
      rw [Bool.and_eq_true] at hm
      exact ⟨x, hx, by simpa using hm.1, by simpa using hm.2⟩
    · rintro ⟨x, hx, h1, h2⟩
      exact ⟨x, hx, by simp [h1, h2]⟩
  · intro h
    have h2 := deleteFrom_miss (fun i => i.id == rid && i.user_id == u) s.incomes
      (show (deleteFrom (fun i => i.id == rid && i.user_id == u) s.incomes).1 = false from h)
    show ({ s with
      incomes := (deleteFrom (fun i => i.id == rid && i.user_id == u) s.incomes).2 } : Store) = s
    rw [h2]
  · intro h
    obtain ⟨a, l₁, l₂, hma, hl1, hdec, hres⟩ :=
      deleteFrom_hit (fun i => i.id == rid && i.user_id == u) s.incomes
        (show (deleteFrom (fun i => i.id == rid && i.user_id == u) s.incomes).1 = true from h)
    rw [Bool.and_eq_true] at hma
    refine ⟨a, l₁, l₂, by simpa using hma.1, by simpa using hma.2, ?_, hdec, ?_⟩
    · intro x hx hcon
      exact hl1 x hx (by simp [hcon.1, hcon.2])
    · show ({ s with
        incomes := (deleteFrom (fun i => i.id == rid && i.user_id == u) s.incomes).2 } : Store) = _
      rw [hres]
  · rw [show (delete_goal u rid s).1
        = (deleteFrom (fun g => g.id == rid && g.user_id == u) s.goals).1 from rfl,
      deleteFrom_fst]
    constructor
    · rintro ⟨x, hx, hm⟩
      rw [Bool.and_eq_true] at hm
      exact ⟨x, hx, by simpa using hm.1, by simpa using hm.2⟩
    · rintro ⟨x, hx, h1, h2⟩
      exact ⟨x, hx, by simp [h1, h2]⟩
  · intro h
    have h2 := deleteFrom_miss (fun g => g.id == rid && g.user_id == u) s.goals
      (show (deleteFrom (fun g => g.id == rid && g.user_id == u) s.goals).1 = false from h)
    show ({ s with
      goals := (deleteFrom (fun g => g.id == rid && g.user_id == u) s.goals).2 } : Store) = s
    rw [h2]
  · intro h
    obtain ⟨a, l₁, l₂, hma, hl1, hdec, hres⟩ :=
      deleteFrom_hit (fun g => g.id == rid && g.user_id == u) s.goals
        (show (deleteFrom (fun g => g.id == rid && g.user_id == u) s.goals).1 = true from h)
    rw [Bool.and_eq_true] at hma
    refine ⟨a, l₁, l₂, by simpa using hma.1, by simpa using hma.2, ?_, hdec, ?_⟩
    · intro x hx hcon
      exact hl1 x hx (by simp [hcon.1, hcon.2])
    · show ({ s with
        goals := (deleteFrom (fun g => g.id == rid && g.user_id == u) s.goals).2 } : Store) = _
      rw [hres]
  · rw [show (delete_investment u rid s).1
        = (deleteFrom (fun v => v.id == rid && v.user_id == u) s.investments).1 from rfl,
      deleteFrom_fst]
    constructor
    · rintro ⟨x, hx, hm⟩
      rw [Bool.and_eq_true] at hm
      exact ⟨x, hx, by simpa using hm.1, by simpa using hm.2⟩
    · rintro ⟨x, hx, h1, h2⟩
      exact ⟨x, hx, by simp [h1, h2]⟩
  · intro h
    have h2 := deleteFrom_miss (fun v => v.id == rid && v.user_id == u) s.investments
      (show (deleteFrom (fun v => v.id == rid && v.user_id == u) s.investments).1 = false from h)
    show ({ s with
      investments :=
        (deleteFrom (fun v => v.id == rid && v.user_id == u) s.investments).2 } : Store) = s
    rw [h2]
  · intro h
    obtain ⟨a, l₁, l₂, hma, hl1, hdec, hres⟩ :=
      deleteFrom_hit (fun v => v.id == rid && v.user_id == u) s.investments
        (show (deleteFrom (fun v => v.id == rid && v.user_id == u) s.investments).1 = true from h)
    rw [Bool.and_eq_true] at hma
    refine ⟨a, l₁, l₂, by simpa using hma.1, by simpa using hma.2, ?_, hdec, ?_⟩
    · intro x hx hcon
      exact hl1 x hx (by simp [hcon.1, hcon.2])
    · show ({ s with
        investments :=
          (deleteFrom (fun v => v.id == rid && v.user_id == u) s.investments).2 } : Store) = _
      rw [hres]

/-- Witness: deleting a non-existent expense id answers 404 and leaves the
store unchanged. -/
theorem delete_endpoints_correct_witness :
    (delete_expense 1 2 oneExpenseStore).1 = false ∧
      (delete_expense 1 2 oneExpenseStore).2 = oneExpenseStore :=
  ⟨by decide, (delete_endpoints_correct 1 2 oneExpenseStore).1.2.1 (by decide)⟩

/-- C8: registration succeeds iff neither the username nor the email is
already taken; a failure leaves the store unchanged; a success creates
exactly one user plus one zero-amount budget per default expense category
(14 of them), all owned by the new user, touching nothing else. -/
theorem register_correct (un em ph : String) (s : Store) :
    ((register un em ph s).1 = RegisterResult.success ↔
        ((¬ ∃ x ∈ s.users, x.username = un) ∧ (¬ ∃ x ∈ s.users, x.email = em)))
  ∧ ((register un em ph s).1 ≠ RegisterResult.success → (register un em ph s).2 = s)
  ∧ ((register un em ph s).1 = RegisterResult.success →
      ∃ uid, ∃ nb : List Budget,
        (register un em ph s).2.users
            = s.users ++ [{ id := uid, username := un, email := em, password_hash := ph }]
        ∧ (register un em ph s).2.budgets = s.budgets ++ nb
        ∧ nb.length = 14
        ∧ nb.map Budget.category = default_expense_categories
        ∧ (∀ b ∈ nb, b.amount = 0 ∧ b.user_id = uid)
        ∧ (register un em ph s).2.expenses = s.expenses
        ∧ (register un em ph s).2.incomes = s.incomes
        ∧ (register un em ph s).2.goals = s.goals
        ∧ (register un em ph s).2.investments = s.investments) := by
  by_cases hu : s.users.any (fun x => x.username == un) = true
  · have hr1 : (register un em ph s).1 = RegisterResult.usernameExists := by
      simp [register, hu]
    have hr2 : (register un em ph s).2 = s := by
      simp [register, hu]
    refine ⟨?_, fun _ => hr2, ?_⟩
    · apply iff_of_false
      · rw [hr1]; simp
      · rintro ⟨h1, _⟩
        obtain ⟨x, hx, hxe⟩ := List.any_eq_true.mp hu
        exact h1 ⟨x, hx, by simpa using hxe⟩
    · intro habs
      rw [hr1] at habs
      exact absurd habs (by simp)
  · by_cases he : s.users.any (fun x => x.email == em) = true
    · have hr1 : (register un em ph s).1 = RegisterResult.emailExists := by
        simp [register, hu, he]
      have hr2 : (register un em ph s).2 = s := by
        simp [register, hu, he]
      refine ⟨?_, fun _ => hr2, ?_⟩
      · apply iff_of_false
        · rw [hr1]; simp
        · rintro ⟨_, h2⟩
          obtain ⟨x, hx, hxe⟩ := List.any_eq_true.mp he
          exact h2 ⟨x, hx, by simpa using hxe⟩
      · intro habs
        rw [hr1] at habs
        exact absurd habs (by simp)
    · have hr1 : (register un em ph s).1 = RegisterResult.success := by
        simp [register, hu, he]
      refine ⟨?_, fun hn => absurd hr1 hn, ?_⟩
      · apply iff_of_true hr1
        constructor
        · rintro ⟨x, hx, hxe⟩
          exact hu (List.any_eq_true.mpr ⟨x, hx, by simp [hxe]⟩)
        · rintro ⟨x, hx, hxe⟩
          exact he (List.any_eq_true.mpr ⟨x, hx, by simp [hxe]⟩)
      · intro _
        have hr2 : (register un em ph s).2
            = { s with
                users := s.users ++
                  [{ id := freshId (s.users.map User.id), username := un,
                     email := em, password_hash := ph }]
                budgets := s.budgets ++ default_expense_categories.enum.map
                  (fun p => ({ id := freshId (s.budgets.map Budget.id) + p.1,
                               category := p.2, amount := 0,
                               user_id := freshId (s.users.map User.id) } : Budget)) } := by
          simp [register, hu, he]
        refine ⟨freshId (s.users.map User.id),
                default_expense_categories.enum.map
                  (fun p => ({ id := freshId (s.budgets.map Budget.id) + p.1,
                               category := p.2, amount := 0,
                               user_id := freshId (s.users.map User.id) } : Budget)),
                ?_, ?_, ?_, ?_, ?_, ?_, ?_, ?_, ?_⟩
        · rw [hr2]
        · rw [hr2]
        · simp [List.enum_length]
          rfl
        · rw [List.map_map]
          have hcomp : (Budget.category ∘ fun p : Nat × String =>
              ({ id := freshId (s.budgets.map Budget.id) + p.1, category := p.2,
                 amount := 0, user_id := freshId (s.users.map User.id) } : Budget))
              = Prod.snd := rfl
          rw [hcomp, List.enum_map_snd]
        · rintro b hb
          obtain ⟨p, _, rfl⟩ := List.mem_map.mp hb
          exact ⟨rfl, rfl⟩
        · rw [hr2]
        · rw [hr2]
        · rw [hr2]
        · rw [hr2]

/-- Witness: registering a fresh username and email in a store with one
other user succeeds. -/
theorem register_correct_witness :
    (register "bob" "bob@example.com" "h2" oneUserStore).1 = RegisterResult.success :=
  ((register_correct "bob" "bob@example.com" "h2" oneUserStore).1).mpr
    ⟨by decide, by decide⟩

/-- C9: under the database's unique-username constraint, login yields a
session identity for id uid iff a stored user with the submitted username
has that id and the submitted password checks against that user's stored
hash; otherwise the invalid-credentials response is produced and no
session identity is established. -/
theorem login_correct (check : String → String → Bool) (un pw : String) (s : Store)
    (husers : ∀ a ∈ s.users, ∀ b ∈ s.users, a.username = b.username → a = b) :
    (∀ uid : Nat, login check un pw s = LoginResult.success uid ↔
        ∃ x ∈ s.users, x.id = uid ∧ x.username = un ∧ check x.password_hash pw = true)
  ∧ (login check un pw s = LoginResult.invalid ↔
        ¬ ∃ x ∈ s.users, x.username = un ∧ check x.password_hash pw = true) := by
  cases hfind : s.users.find? (fun x => x.username == un) with
  | none =>
    have hnone : ∀ x ∈ s.users, ¬(x.username = un) := fun x hx hc =>
      (List.find?_eq_none.mp hfind x hx) (by simp [hc])
    constructor
    · intro uid
      apply iff_of_false
      · simp [login, hfind]
      · rintro ⟨x, hx, _, hun, _⟩
        exact hnone x hx hun
    · apply iff_of_true
      · simp [login, hfind]
      · rintro ⟨x, hx, hun, _⟩
        exact hnone x hx hun
  | some f =>
    have hmem := List.mem_of_find?_eq_some hfind
    have hfun : f.username = un := by simpa using List.find?_some hfind
    by_cases hchk : check f.password_hash pw = true
    · have hlogin : login check un pw s = LoginResult.success f.id := by
        simp [login, hfind, hchk]
      constructor
      · intro uid
        rw [hlogin]
        constructor
        · intro h
          injection h with h2
          exact ⟨f, hmem, h2, hfun, hchk⟩
        · rintro ⟨x, hx, hid, hun, _⟩
          have hxf : x = f := husers x hx f hmem (hun.trans hfun.symm)
          rw [hxf] at hid
          rw [hid]
      · rw [hlogin]
        apply iff_of_false
        · simp
        · intro hno
          exact hno ⟨f, hmem, hfun, hchk⟩
    · have hlogin : login check un pw s = LoginResult.invalid := by
        simp [login, hfind, hchk]
      constructor
      · intro uid
        rw [hlogin]
        apply iff_of_false
        · simp
        · rintro ⟨x, hx, _, hun, hc⟩
          have hxf : x = f := husers x hx f hmem (hun.trans hfun.symm)
          rw [hxf] at hc
          exact hchk hc
      · rw [hlogin]
        apply iff_of_true rfl
        rintro ⟨x, hx, hun, hc⟩
        have hxf : x = f := husers x hx f hmem (hun.trans hfun.symm)
        rw [hxf] at hc
        exact hchk hc

/-- Witness: with one stored user (alice, hash h1) and hash checking
modelled as string equality, logging in as alice with the right credential
establishes the session identity 7. -/
theorem login_correct_witness :
    login (fun h p2 => h == p2) "alice" "h1" oneUserStore = LoginResult.success 7 :=
  (((login_correct (fun h p2 => h == p2) "alice" "h1" oneUserStore (by decide)).1) 7).mpr
    ⟨{ id := 7, username := "alice", email := "alice@example.com", password_hash := "h1" },
     by decide, rfl, rfl, by decide⟩

/-! ## Division-guard analysis (claim C6) -/

theorem foldl_max_mem (m : List (String × ℚ)) :
    ∀ p : String × ℚ, m.foldl (fun acc q => if q.2 > acc.2 then q else acc) p ∈ p :: m := by
  induction m with
  | nil => intro p; simp
  | cons q m ih =>
    intro p
    rw [List.foldl_cons]
    rcases List.mem_cons.mp (ih (if q.2 > p.2 then q else p)) with h1 | h1
    · rw [h1]
      by_cases hc : q.2 > p.2
      · simp [hc]
      · simp [hc]
    · simp [List.mem_cons, h1]

theorem maxBySnd_mem {m : List (String × ℚ)} {p : String × ℚ}
    (h : maxBySnd m = some p) : p ∈ m := by
  cases m with
  | nil => simp [maxBySnd] at h
  | cons q m =>
    simp only [maxBySnd, Option.some.injEq] at h
    have h2 := foldl_max_mem m q
    rw [h] at h2
    exact h2

theorem vals_nonneg_addToGroup (k : String) (v : ℚ) (hv : 0 ≤ v) :
    ∀ m : List (String × ℚ), (∀ p ∈ m, 0 ≤ p.2) →
      ∀ p ∈ addToGroup m k v, 0 ≤ p.2 := by
  intro m
  induction m with
  | nil =>
    intro _ p hp
    simp [addToGroup] at hp
    rw [hp]
    exact hv
  | cons q m ih =>
    intro hm p hp
    by_cases hq : q.1 = k
    · simp only [addToGroup, if_pos hq] at hp
      rcases List.mem_cons.mp hp with rfl | hp2
      · exact add_nonneg (hm q (List.mem_cons_self q m)) hv
      · exact hm p (List.mem_cons_of_mem _ hp2)
    · simp only [addToGroup, if_neg hq] at hp
      rcases List.mem_cons.mp hp with rfl | hp2
      · exact hm p (List.mem_cons_self p m)
      · exact ih (fun r hr => hm r (List.mem_cons_of_mem _ hr)) p hp2

theorem vals_nonneg_foldl :
    ∀ (pairs m : List (String × ℚ)), (∀ p ∈ m, 0 ≤ p.2) → (∀ p ∈ pairs, 0 ≤ p.2) →
      ∀ p ∈ pairs.foldl (fun m p => addToGroup m p.1 p.2) m, 0 ≤ p.2 := by
  intro pairs
  induction pairs with
  | nil => intro m hm _ p hp; exact hm p hp
  | cons q pairs ih =>
    intro m hm hq p hp
    rw [List.foldl_cons] at hp
    exact ih (addToGroup m q.1 q.2)
      (vals_nonneg_addToGroup q.1 q.2 (hq q (List.mem_cons_self q pairs)) m hm)
      (fun r hr => hq r (List.mem_cons_of_mem _ hr)) p hp

theorem vals_nonneg_groupBy (pairs : List (String × ℚ))
    (h : ∀ p ∈ pairs, 0 ≤ p.2) : ∀ p ∈ groupBy pairs, 0 ≤ p.2 :=
  vals_nonneg_foldl pairs [] (by simp) h

theorem sumVals_nonneg (m : List (String × ℚ)) (h : ∀ p ∈ m, 0 ≤ p.2) :
    0 ≤ sumVals m := by
  induction m with
  | nil => simp [sumVals]
  | cons q m ih =>
    have h2 : sumVals (q :: m) = q.2 + sumVals m := by simp [sumVals]
    rw [h2]
    exact add_nonneg (h q (List.mem_cons_self q m))
      (ih (fun r hr => h r (List.mem_cons_of_mem _ hr)))

theorem mem_le_sumVals (m : List (String × ℚ)) (h : ∀ p ∈ m, 0 ≤ p.2) :
    ∀ p ∈ m, p.2 ≤ sumVals m := by
  induction m with
  | nil => intro p hp; exact absurd hp (by simp)
  | cons q m ih =>
    intro p hp
    have h2 : sumVals (q :: m) = q.2 + sumVals m := by simp [sumVals]
    rcases List.mem_cons.mp hp with rfl | hp2
    · have h3 : 0 ≤ sumVals m := sumVals_nonneg m (fun r hr => h r (List.mem_cons_of_mem _ hr))
      rw [h2]
      linarith
    · have h3 := ih (fun r hr => h r (List.mem_cons_of_mem _ hr)) p hp2
      have h4 : 0 ≤ q.2 := h q (List.mem_cons_self q m)
      rw [h2]
      linarith

/-- C6 counterexample: two expenses of 5 and -5 in different categories
satisfy the path condition of the highest-category-share division while
total_expenses is 0, so that division does run with a zero divisor
(a ZeroDivisionError in the Python source). -/
theorem highest_share_guard_zero_divisor :
    ¬ (∀ es : List Expense, highest_share_guard es → sumExpenseAmounts es ≠ 0) := by
  intro hclaim
  have hgrp : expense_by_category cexExpenses = [("A", 5), ("B", -5)] := by
    norm_num [cexExpenses, expense_by_category, groupBy, addToGroup]
    all_goals decide
  have htot : sumExpenseAmounts cexExpenses = 0 := by
    norm_num [cexExpenses, sumExpenseAmounts]
  have hval : highestCategoryValue cexExpenses = 5 := by
    norm_num [highestCategoryValue, hgrp, maxBySnd]
  have hg : highest_share_guard cexExpenses := by
    constructor
    · rw [hgrp]
      simp
    · rw [hval, htot]
      norm_num
  exact hclaim cexExpenses hg htot

/-- C6 amended: the expense-ratio, goal-progress and budget-percentage
divisions are guarded by the positivity of their divisors; the
highest-category-share division has a nonzero divisor on its path provided
every expense amount is nonnegative. -/
theorem division_guards_nonzero :
    (∀ xs : List Income, expense_frac_guard xs → sumIncomeAmounts xs ≠ 0)
  ∧ (∀ g : Goal, goal_progress_guard g → g.target_amount ≠ 0)
  ∧ (∀ b : ℚ, budget_percentage_guard b → b ≠ 0)
  ∧ (∀ es : List Expense, (∀ e ∈ es, 0 ≤ e.amount) →
        highest_share_guard es → sumExpenseAmounts es ≠ 0) := by
  refine ⟨?_, ?_, ?_, ?_⟩
  · intro xs h
    exact ne_of_gt h
  · intro g h
    exact ne_of_gt h
  · intro b h
    exact ne_of_gt h
  · rintro es hnn ⟨hne, hgt⟩ h0
    obtain ⟨p, hp⟩ : ∃ p, maxBySnd (expense_by_category es) = some p := by
      cases hc : expense_by_category es with
      | nil => exact absurd hc hne
      | cons q m => exact ⟨_, rfl⟩
    have hval : highestCategoryValue es = p.2 := by
      simp [highestCategoryValue, hp]
    have hmem : p ∈ expense_by_category es := maxBySnd_mem hp
    have hvnn : ∀ q ∈ expense_by_category es, 0 ≤ q.2 := by
      apply vals_nonneg_groupBy
      rintro q hq
      obtain ⟨e, he, rfl⟩ := List.mem_map.mp hq
      exact hnn e he
    have hsum : sumVals (expense_by_category es) = sumExpenseAmounts es := by
      simpa only [expense_by_category] using grouped_total Expense.category Expense.amount es
    have hle : p.2 ≤ sumVals (expense_by_category es) := mem_le_sumVals _ hvnn p hmem
    rw [hsum, h0] at hle
    rw [hval, h0] at hgt
    simp at hgt
    linarith

/-- Witness: on two nonnegative expenses with a dominant category the
amended guard theorem applies and yields a nonzero divisor. -/
theorem division_guards_nonzero_witness :
    highest_share_guard posExpenses ∧ sumExpenseAmounts posExpenses ≠ 0 := by
  have hgrp : expense_by_category posExpenses = [("Housing", 6), ("Food", 1)] := by
    norm_num [posExpenses, expense_by_category, groupBy, addToGroup]
    all_goals decide
  have hval : highestCategoryValue posExpenses = 6 := by
    norm_num [highestCategoryValue, hgrp, maxBySnd]
  have htot : sumExpenseAmounts posExpenses = 7 := by
    norm_num [posExpenses, sumExpenseAmounts]
  have hg : highest_share_guard posExpenses := by
    constructor
    · rw [hgrp]
      simp
    · rw [hval, htot]
      norm_num
  refine ⟨hg, ?_⟩
  exact division_guards_nonzero.2.2.2 posExpenses (by norm_num [posExpenses]) hg

/-! ## Suggestion-rule analysis (claim C7) -/

theorem ne_of_data_head (a b : String) (c d : Char) (cs ds : List Char)
    (ha : a.data = c :: cs) (hb : b.data = d :: ds) (hcd : c ≠ d) : a ≠ b := by
  intro h
  rw [h] at ha
  have h2 := ha.symm.trans hb
  injection h2 with h3 _
  exact hcd h3

theorem ne_of_data_head2 (a b : String) (c1 c2 d1 d2 : Char) (cs ds : List Char)
    (ha : a.data = c1 :: c2 :: cs) (hb : b.data = d1 :: d2 :: ds) (hcd : c2 ≠ d2) :
    a ≠ b := by
  intro h
  rw [h] at ha
  have h2 := ha.symm.trans hb
  injection h2 with _ h3
  injection h3 with h4 _
  exact hcd h4

theorem goal_title_ne_reduce (n : String) : ("Goal: " ++ n) ≠ "Reduce Expenses" :=
  ne_of_data_head _ _ 'G' 'R' ("oal: ".data ++ n.data) "educe Expenses".data
    (by rw [String.data_append]; exact rfl) rfl (by decide)

theorem goal_title_ne_great (n : String) : ("Goal: " ++ n) ≠ "Great Savings Rate" :=
  ne_of_data_head2 _ _ 'G' 'o' 'G' 'r' ("al: ".data ++ n.data) "eat Savings Rate".data
    (by rw [String.data_append]; exact rfl) rfl (by decide)

theorem high_title_ne_reduce (c : String) : ("High " ++ c ++ " Expenses") ≠ "Reduce Expenses" :=
  ne_of_data_head _ _ 'H' 'R' (("igh ".data ++ c.data) ++ " Expenses".data)
    "educe Expenses".data (by rw [String.data_append, String.data_append]; exact rfl) rfl (by decide)

theorem high_title_ne_great (c : String) : ("High " ++ c ++ " Expenses") ≠ "Great Savings Rate" :=
  ne_of_data_head _ _ 'H' 'G' (("igh ".data ++ c.data) ++ " Expenses".data)
    "reat Savings Rate".data (by rw [String.data_append, String.data_append]; exact rfl) rfl (by decide)

theorem not_mem_emergency (r : Suggestion) (vs : List Investment) (h : r.stype ≠ "info") :
    r ∉ emergencySuggestions vs := by
  unfold emergencySuggestions
  split
  · intro hm
    have h2 := List.mem_singleton.mp hm
    rw [h2] at h
    exact h rfl
  · simp

theorem not_mem_diversify (r : Suggestion) (vs : List Investment) (h : r.stype ≠ "info") :
    r ∉ diversifySuggestions vs := by
  unfold diversifySuggestions
  split
  · intro hm
    have h2 := List.mem_singleton.mp hm
    rw [h2] at h
    exact h rfl
  · simp

theorem not_mem_defaults (r : Suggestion) (h : r.stype ≠ "info") :
    r ∉ defaultSuggestions := by
  intro hm
  simp only [defaultSuggestions, List.mem_cons, List.not_mem_nil, or_false] at hm
  rcases hm with rfl | rfl | rfl <;> exact h rfl

theorem not_mem_highCat (r : Suggestion) (es : List Expense)
    (h : ∀ c, r.title ≠ "High " ++ c ++ " Expenses") :
    r ∉ highCategorySuggestions es := by
  cases hmx : maxBySnd (expense_by_category es) with
  | none => simp [highCategorySuggestions, hmx]
  | some hc =>
    simp only [highCategorySuggestions, hmx]
    split
    · intro hm
      have h2 := List.mem_singleton.mp hm
      exact h hc.1 (by rw [h2])
    · simp

theorem not_mem_goalSugg (r : Suggestion) (gs : List Goal)
    (h : ∀ n, r.title ≠ "Goal: " ++ n) :
    r ∉ goalSuggestions gs := by
  intro hm
  obtain ⟨g, _, hg⟩ := List.mem_filterMap.mp hm
  by_cases hp : goal_progress g < 1/4
  · rw [if_pos hp] at hg
    injection hg with hg2
    exact h g.name (by rw [← hg2])
  · rw [if_neg hp] at hg
    exact absurd hg (by simp)

theorem mem_frac_reduce (te ti : ℚ) :
    (({ title := "Reduce Expenses", stype := "warning" } : Suggestion)
        ∈ fracSuggestions te ti)
      ↔ (ti > 0 ∧ te / ti > 9/10) := by
  simp only [fracSuggestions]
  by_cases hti : ti > 0
  · rw [if_pos hti]
    by_cases hr : te / ti > 9/10
    · rw [if_pos hr]
      exact iff_of_true (List.mem_singleton.mpr rfl) ⟨hti, hr⟩
    · rw [if_neg hr]
      by_cases hs : te / ti < 1/2
      · rw [if_pos hs]
        apply iff_of_false
        · intro hm
          have h2 := congrArg Suggestion.title (List.mem_singleton.mp hm)
          exact absurd h2 (by decide)
        · rintro ⟨_, hr2⟩
          exact hr hr2
      · rw [if_neg hs]
        apply iff_of_false (by simp)
        rintro ⟨_, hr2⟩
        exact hr hr2
  · rw [if_neg hti]
    apply iff_of_false (by simp)
    rintro ⟨hpos, _⟩
    exact hti hpos

theorem mem_frac_great (te ti : ℚ) :
    (({ title := "Great Savings Rate", stype := "success" } : Suggestion)
        ∈ fracSuggestions te ti)
      ↔ (ti > 0 ∧ te / ti < 1/2) := by
  simp only [fracSuggestions]
  by_cases hti : ti > 0
  · rw [if_pos hti]
    by_cases hr : te / ti > 9/10
    · rw [if_pos hr]
      apply iff_of_false
      · intro hm
        have h2 := congrArg Suggestion.title (List.mem_singleton.mp hm)
        exact absurd h2 (by decide)
      · rintro ⟨_, hs⟩
        linarith
    · rw [if_neg hr]
      by_cases hs : te / ti < 1/2
      · rw [if_pos hs]
        exact iff_of_true (List.mem_singleton.mpr rfl) ⟨hti, hs⟩
      · rw [if_neg hs]
        apply iff_of_false (by simp)
        rintro ⟨_, hs2⟩
        exact hs hs2
  · rw [if_neg hti]
    apply iff_of_false (by simp)
    rintro ⟨hpos, _⟩
    exact hti hpos

theorem mem_suggestionsList_iff (r : Suggestion) (es : List Expense) (xs : List Income)
    (gs : List Goal) (vs : List Investment) (hr : r ∉ defaultSuggestions) :
    r ∈ suggestionsList es xs gs vs ↔
      r ∈ fracSuggestions (sumExpenseAmounts es) (sumIncomeAmounts xs)
          ++ emergencySuggestions vs ++ diversifySuggestions vs
          ++ highCategorySuggestions es ++ goalSuggestions gs := by
  simp only [suggestionsList]
  split
  · rename_i hEmp
    apply iff_of_false (fun hm => hr hm)
    rw [List.isEmpty_iff.mp hEmp]
    simp
  · exact Iff.rfl

/-- C7: with positive total income the suggestions page contains the
Reduce Expenses warning iff expenses exceed 90 percent of income and the
Great Savings Rate suggestion iff they are below 50 percent; with zero
total income neither appears. -/
theorem frac_suggestion_rules (es : List Expense) (xs : List Income)
    (gs : List Goal) (vs : List Investment) :
    (sumIncomeAmounts xs > 0 →
      ((({ title := "Reduce Expenses", stype := "warning" } : Suggestion)
          ∈ suggestionsList es xs gs vs)
        ↔ sumExpenseAmounts es / sumIncomeAmounts xs > 9/10)
      ∧ ((({ title := "Great Savings Rate", stype := "success" } : Suggestion)
          ∈ suggestionsList es xs gs vs)
        ↔ sumExpenseAmounts es / sumIncomeAmounts xs < 1/2))
  ∧ (sumIncomeAmounts xs = 0 →
      (({ title := "Reduce Expenses", stype := "warning" } : Suggestion)
          ∉ suggestionsList es xs gs vs)
      ∧ (({ title := "Great Savings Rate", stype := "success" } : Suggestion)
          ∉ suggestionsList es xs gs vs)) := by
  have hRmem := mem_suggestionsList_iff
    { title := "Reduce Expenses", stype := "warning" } es xs gs vs
    (not_mem_defaults _ (by decide))
  have hGmem := mem_suggestionsList_iff
    { title := "Great Savings Rate", stype := "success" } es xs gs vs
    (not_mem_defaults _ (by decide))
  have hRe := not_mem_emergency
    ({ title := "Reduce Expenses", stype := "warning" } : Suggestion) vs (by decide)
  have hRd := not_mem_diversify
    ({ title := "Reduce Expenses", stype := "warning" } : Suggestion) vs (by decide)
  have hRh := not_mem_highCat
    ({ title := "Reduce Expenses", stype := "warning" } : Suggestion) es
    (fun c => (high_title_ne_reduce c).symm)
  have hRg := not_mem_goalSugg
    ({ title := "Reduce Expenses", stype := "warning" } : Suggestion) gs
    (fun n => (goal_title_ne_reduce n).symm)
  have hGe := not_mem_emergency
    ({ title := "Great Savings Rate", stype := "success" } : Suggestion) vs (by decide)
  have hGd := not_mem_diversify
    ({ title := "Great Savings Rate", stype := "success" } : Suggestion) vs (by decide)
  have hGh := not_mem_highCat
    ({ title := "Great Savings Rate", stype := "success" } : Suggestion) es
    (fun c => (high_title_ne_great c).symm)
  have hGg := not_mem_goalSugg
    ({ title := "Great Savings Rate", stype := "success" } : Suggestion) gs
    (fun n => (goal_title_ne_great n).symm)
  have hRfrac : (({ title := "Reduce Expenses", stype := "warning" } : Suggestion)
      ∈ suggestionsList es xs gs vs)
      ↔ (sumIncomeAmounts xs > 0
          ∧ sumExpenseAmounts es / sumIncomeAmounts xs > 9/10) := by
    rw [hRmem, ← mem_frac_reduce (sumExpenseAmounts es) (sumIncomeAmounts xs)]
    constructor
    · intro hm
      simp only [List.mem_append] at hm
      rcases hm with ((((hm | hm) | hm) | hm) | hm)
      · exact hm
      · exact absurd hm hRe
      · exact absurd hm hRd
      · exact absurd hm hRh
      · exact absurd hm hRg
    · intro hm
      simp only [List.mem_append]
      exact Or.inl (Or.inl (Or.inl (Or.inl hm)))
  have hGfrac : (({ title := "Great Savings Rate", stype := "success" } : Suggestion)
      ∈ suggestionsList es xs gs vs)
      ↔ (sumIncomeAmounts xs > 0
          ∧ sumExpenseAmounts es / sumIncomeAmounts xs < 1/2) := by
    rw [hGmem, ← mem_frac_great (sumExpenseAmounts es) (sumIncomeAmounts xs)]
    constructor
    · intro hm
      simp only [List.mem_append] at hm
      rcases hm with ((((hm | hm) | hm) | hm) | hm)
      · exact hm
      · exact absurd hm hGe
      · exact absurd hm hGd
      · exact absurd hm hGh
      · exact absurd hm hGg
    · intro hm
      simp only [List.mem_append]
      exact Or.inl (Or.inl (Or.inl (Or.inl hm)))
  constructor
  · intro hti
    constructor
    · rw [hRfrac]
      exact ⟨fun hc => hc.2, fun hgt => ⟨hti, hgt⟩⟩
    · rw [hGfrac]
      exact ⟨fun hc => hc.2, fun hlt => ⟨hti, hlt⟩⟩
  · intro hti0
    constructor
    · rw [hRfrac]
      rintro ⟨hpos, _⟩
      rw [hti0] at hpos
      exact lt_irrefl 0 hpos
    · rw [hGfrac]
      rintro ⟨hpos, _⟩
      rw [hti0] at hpos
      exact lt_irrefl 0 hpos

/-- Witness: income 100 against expenses 95 is over the 90 percent line,
so the Reduce Expenses warning is on the page. -/
theorem frac_suggestion_rules_witness :
    sumIncomeAmounts salaryIncomes > 0 ∧
      (({ title := "Reduce Expenses", stype := "warning" } : Suggestion)
        ∈ suggestionsList heavyExpenses salaryIncomes [] []) := by
  have hti : sumIncomeAmounts salaryIncomes > 0 := by
    norm_num [salaryIncomes, sumIncomeAmounts]
  refine ⟨hti, ?_⟩
  apply ((frac_suggestion_rules heavyExpenses salaryIncomes [] []).1 hti).1.mpr
  have hte : sumExpenseAmounts heavyExpenses = 95 := by
    norm_num [heavyExpenses, sumExpenseAmounts]
  have hti2 : sumIncomeAmounts salaryIncomes = 100 := by
    norm_num [salaryIncomes, sumIncomeAmounts]
  rw [hte, hti2]
  norm_num

/-! ## Non-default categories and the budget page (claim C10) -/

theorem any_key_addToGroup (k : String) (v : ℚ) :
    ∀ m : List (String × ℚ), m.any (fun p => p.1 == k) = true →
      ∀ c, (addToGroup m k v).any (fun p => p.1 == c) = m.any (fun p => p.1 == c) := by
  intro m
  induction m with
  | nil => intro hk; simp at hk
  | cons q m ih =>
    intro hk c
    by_cases hq : q.1 = k
    · simp [addToGroup, hq, List.any_cons]
    · have hk2 : m.any (fun p => p.1 == k) = true := by
        simpa [List.any_cons, hq] using hk
      simp [addToGroup, hq, List.any_cons, ih hk2]

theorem spendStep_skip (m : List (String × ℚ)) (e : Expense)
    (h : ¬(m.any (fun p => p.1 == e.category) = true)) : spendStep m e = m := by
  unfold spendStep
  rw [if_neg h]

theorem any_key_spendFold :
    ∀ (es : List Expense) (m : List (String × ℚ)) (c : String),
      (es.foldl spendStep m).any (fun p => p.1 == c) = m.any (fun p => p.1 == c) := by
  intro es
  induction es with
  | nil => intro m c; rfl
  | cons e es ih =>
    intro m c
    rw [List.foldl_cons, ih]
    unfold spendStep
    by_cases hk : m.any (fun p => p.1 == e.category) = true
    · rw [if_pos hk]
      exact any_key_addToGroup e.category e.amount m hk c
    · rw [if_neg hk]

/-- C10: an expense whose category is outside the 14 defaults still raises
total_expenses and its own bucket of expense_by_category, yet changes
nothing in the budget page's spending map, and hence no budget row
(spent amount, percentage or status). -/
theorem nondefault_category_bypasses_budget (es : List Expense) (e : Expense)
    (h : e.category ∉ default_expense_categories) :
    sumExpenseAmounts (es ++ [e]) = sumExpenseAmounts es + e.amount
  ∧ groupVal (expense_by_category (es ++ [e])) e.category
      = groupVal (expense_by_category es) e.category + e.amount
  ∧ spending_by_category (es ++ [e]) = spending_by_category es
  ∧ (∀ bs : List Budget, budget_data bs (es ++ [e]) = budget_data bs es) := by
  have hsp : spending_by_category (es ++ [e]) = spending_by_category es := by
    unfold spending_by_category
    rw [List.foldl_append]
    simp only [List.foldl_cons, List.foldl_nil]
    have hini : ¬ ((default_expense_categories.map (fun c => (c, (0 : ℚ)))).any
        (fun p => p.1 == e.category) = true) := by
      intro hA
      obtain ⟨p, hp, hpe⟩ := List.any_eq_true.mp hA
      obtain ⟨c, hc, rfl⟩ := List.mem_map.mp hp
      have hce : c = e.category := by simpa using hpe
      rw [hce] at hc
      exact h hc
    have hfold := any_key_spendFold es
      (default_expense_categories.map (fun c => (c, (0 : ℚ)))) e.category
    exact spendStep_skip _ e (by rw [hfold]; exact hini)
  refine ⟨?_, ?_, hsp, ?_⟩
  · simp [sumExpenseAmounts]
  · have h2 := groupVal_addToGroup
      (groupBy (es.map (fun x => (x.category, x.amount)))) e.category e.amount e.category
    rw [if_pos rfl] at h2
    simpa only [expense_by_category, groupBy, List.map_append, List.map_cons,
      List.map_nil, List.foldl_append, List.foldl_cons, List.foldl_nil] using h2
  · intro bs
    simp only [budget_data, hsp]

/-- Witness: a Coffee expense is outside the default categories and adding
it leaves the budget page's spending map untouched. -/
theorem nondefault_category_bypasses_budget_witness :
    coffeeExpense.category ∉ default_expense_categories ∧
      spending_by_category ([] ++ [coffeeExpense]) = spending_by_category [] := by
  refine ⟨by decide, ?_⟩
  exact (nondefault_category_bypasses_budget [] coffeeExpense (by decide)).2.2.1

end FinGenius



